import Mathlib

/-!
Verification of the clang-uml semantic-model layer against its C++ sources.

The definitions below are a shallow embedding of the code in
`src/common/clang_utils.cc`, `src/package_diagram/visitor/translation_unit_visitor.cc`,
`src/puml/sequence_diagram_generator.cc` and `src/cli/cli_handler.cc`.
Machine integers (`size_t`, `int64_t`) are modelled as `Nat` with explicit
`% 2 ^ 64` where wrap-around matters; `std::hash<std::string>` is kept
abstract as a function parameter `h64 : String → Nat`.
-/

namespace Clanguml

/-- Set of characters accepted by C `isspace` (the code calls `std::isspace`
on plain ASCII input). -/
def isSpaceC (c : Char) : Bool :=
  c = ' ' || c = '\t' || c = '\n' || c = '\x0b' || c = '\x0c' || c = '\r'

/-- C `isalpha` restricted to ASCII, as used on identifier characters. -/
def isAlphaC (c : Char) : Bool :=
  (('a' ≤ c && c ≤ 'z') || ('A' ≤ c && c ≤ 'Z'))

/-- C `isalnum` restricted to ASCII. -/
def isAlnumC (c : Char) : Bool :=
  isAlphaC c || ('0' ≤ c && c ≤ '9')

/-- Does the list `p` occur as a prefix of `l`? (used for substring search,
mirroring `std::string::find` at position 0). -/
def startsWithL : List Char → List Char → Bool
  | [], _ => true
  | _ :: _, [] => false
  | p :: ps, c :: cs => p = c && startsWithL ps cs

/-- Embedding of `util::replace_all(input, from, to)`: scan left to right,
replace each occurrence of `fr` by `toL` and resume scanning after the
replacement (the C++ loop advances `pos` past the inserted text).  The
`fuel` argument only bounds the recursion; every step consumes at least one
character, so starting it at the input length never exhausts it. -/
def replaceAllL (fr toL : List Char) : Nat → List Char → List Char
  | 0, l => l
  | _ + 1, [] => []
  | fuel + 1, c :: rest =>
    if fr ≠ [] ∧ startsWithL fr (c :: rest) = true then
      toL ++ replaceAllL fr toL fuel ((c :: rest).drop fr.length)
    else
      c :: replaceAllL fr toL fuel rest

/-- String wrapper for `util::replace_all`. -/
def replaceAll (s fr toS : String) : String :=
  (replaceAllL fr.toList toS.toList s.toList.length s.toList).asString

/-- Canonicalisation performed by the package-diagram `to_id` in
`translation_unit_visitor.cc` (lines 38–45): strip `(anonymous namespace)`
and collapse the `::::` that stripping leaves behind. -/
def canonical (s : String) : String :=
  replaceAll (replaceAll s "(anonymous namespace)" "") "::::" "::"

/-- Embedding of `to_id<std::string>` from `clang_utils.cc` (lines 304–307):
`std::hash<std::string>{}(full_name) >> 3U`.  The hash is abstract; its
`size_t` codomain is modelled by reducing modulo `2 ^ 64`. -/
def toIdStr (h64 : String → Nat) (fullName : String) : Nat :=
  (h64 fullName % 2 ^ 64) / 2 ^ 3

/-- Embedding of the package-diagram `to_id(const clang::NamespaceDecl *)`
(`translation_unit_visitor.cc`, lines 38–45): canonicalise the qualified
name, hash it and shift right by 3. -/
def toIdPkg (h64 : String → Nat) (qualifiedName : String) : Nat :=
  (h64 (canonical qualifiedName) % 2 ^ 64) / 2 ^ 3

/-- C1: the id derived for a qualified name is the 64-bit hash of its
canonical form shifted right by three bits; it therefore fits in 61 bits,
is deterministic, and two names with the same canonical form receive the
same id. -/
theorem C1_identity_canonical_hash (h64 : String → Nat) (s t : String)
    (hc : canonical s = canonical t) :
    toIdPkg h64 s = (h64 (canonical s) % 2 ^ 64) / 2 ^ 3 ∧
    toIdPkg h64 s = toIdStr h64 (canonical s) ∧
    toIdPkg h64 s < 2 ^ 61 ∧
    toIdPkg h64 s = toIdPkg h64 t := by
  refine ⟨rfl, rfl, ?_, ?_⟩
  · have hlt : h64 (canonical s) % 2 ^ 64 < 2 ^ 64 := Nat.mod_lt _ (by norm_num)
    have : (h64 (canonical s) % 2 ^ 64) / 2 ^ 3 < 2 ^ 61 := by
      apply Nat.div_lt_of_lt_mul
      calc h64 (canonical s) % 2 ^ 64 < 2 ^ 64 := hlt
        _ = 2 ^ 3 * 2 ^ 61 := by norm_num
    exact this
  · unfold toIdPkg
    rw [hc]

/-- Witness for C1: the names `ns1::(anonymous namespace)::ns2` and
`ns1::ns2` share a canonical form, hence an id, under any hash (here a
concrete toy hash). -/
theorem C1_identity_canonical_hash_witness :
    canonical "ns1::(anonymous namespace)::ns2" = canonical "ns1::ns2" ∧
    toIdPkg String.length "ns1::(anonymous namespace)::ns2" =
      toIdPkg String.length "ns1::ns2" := by
  refine ⟨by decide, ?_⟩
  exact (C1_identity_canonical_hash String.length
    "ns1::(anonymous namespace)::ns2" "ns1::ns2" (by decide)).2.2.2

/-! ## Package-diagram visitor: `find_relationships`
(`src/package_diagram/visitor/translation_unit_visitor.cc`, lines 307–412) -/

/-- `common::model::relationship_t`. -/
inductive RelT where
  | kExtension
  | kComposition
  | kAggregation
  | kAssociation
  | kDependency
  | kInstantiation
  | kFriendship
  | kConstraint
deriving DecidableEq, Repr

/-- `clang::TemplateArgument::ArgKind`, restricted to the kinds the visitor
dispatches on; `typeK` is `ArgKind::Type`. -/
inductive TArgKind where
  | integral
  | nullK
  | expression
  | nullPtr
  | templateK
  | templateExpansion
  | typeK
deriving DecidableEq, Repr

/-- Shape of a `clang::QualType` as observed through the classifier calls the
visitor makes (`isVoidType`, `isPointerType`, …).  A template
specialisation carries whether it is a type alias, the argument list of the
aliased specialisation when the alias desugars to one (`getAliasedType()
->getAs<TemplateSpecializationType>()`), and its own arguments, each a
kind paired with the result of `getAsType()`.  A record carries the
qualified name of its enclosing namespace context when that context is a
namespace.  An enum carries its declaration id (`getDecl()->getID()`). -/
inductive CType where
  | void
  | ptr (pointee : CType)
  | lvalRef (referent : CType)
  | rvalRef (referent : CType)
  | arr (element : CType)
  | enumT (declId : Nat)
  | funProto (params : List CType)
  | templateSpec (isAlias : Bool) (aliasedArgs : Option (List (TArgKind × Option CType)))
      (args : List (TArgKind × Option CType))
  | record (nsContext : Option String)
  | builtin

mutual
/-- Embedding of `translation_unit_visitor::find_relationships`.  Returns the
list of `(id, kind)` pairs appended to `relationships` together with the
`result` boolean the C++ function returns.  The recursive branches for
pointers, references and arrays discard the callee's boolean, exactly as the
C++ ignores those return values. -/
def findRelationships (si : String → Bool) (h64 : String → Nat) :
    CType → RelT → List (Nat × RelT) × Bool
  | .void, _ => ([], false)
  | .ptr .void, _ => ([], false)
  | .ptr pointee, _ =>
    ((findRelationships si h64 pointee .kAssociation).1, false)
  | .rvalRef referent, _ =>
    ((findRelationships si h64 referent .kAggregation).1, false)
  | .lvalRef referent, _ =>
    ((findRelationships si h64 referent .kAssociation).1, false)
  | .arr element, _ =>
    ((findRelationships si h64 element .kAggregation).1, false)
  | .enumT declId, hint => ([(declId, hint)], false)
  | .templateSpec isAlias aliasedArgs args, hint =>
    if isAlias then
      match aliasedArgs with
      | none => ([], false)
      | some l => findRelArgs si h64 l hint false
    else
      findRelArgs si h64 args hint false
  | .record nsContext, hint =>
    match nsContext with
    | some q =>
      if si q then ([(toIdPkg h64 q, hint)], true) else ([], false)
    | none => ([], false)
  | .funProto _, _ => ([], false)
  | .builtin, _ => ([], false)

/-- The loop over template-specialisation arguments inside
`find_relationships`; `b` threads the `result` variable, which each
recursive call overwrites. -/
def findRelArgs (si : String → Bool) (h64 : String → Nat) :
    List (TArgKind × Option CType) → RelT → Bool → List (Nat × RelT) × Bool
  | [], _, b => ([], b)
  | (k, ot) :: rest, hint, b =>
    match k with
    | .integral | .nullK | .expression | .nullPtr | .templateK
    | .templateExpansion => findRelArgs si h64 rest hint b
    | .typeK =>
      match ot with
      | some (.funProto ps) =>
        let r1 := findRelParams si h64 ps b
        let r2 := findRelArgs si h64 rest hint r1.2
        (r1.1 ++ r2.1, r2.2)
      | some t =>
        let r1 := findRelationships si h64 t hint
        let r2 := findRelArgs si h64 rest hint r1.2
        (r1.1 ++ r2.1, r2.2)
      | none => findRelArgs si h64 rest hint b

/-- The loop over `FunctionProtoType` parameter types inside
`find_relationships`: each parameter is scanned with a `dependency` hint,
`result` being overwritten by each call. -/
def findRelParams (si : String → Bool) (h64 : String → Nat) :
    List CType → Bool → List (Nat × RelT) × Bool
  | [], b => ([], b)
  | p :: rest, _ =>
    let r1 := findRelationships si h64 p .kDependency
    let r2 := findRelParams si h64 rest r1.2
    (r1.1 ++ r2.1, r2.2)
end

/-- C2 counterexample: an enum reached behind an rvalue reference (hint
`aggregation`) yields a relationship of kind `aggregation`, not
`dependency`: the enum branch of `find_relationships` emits the current
hint, so the claim that an enum always produces a `dependency` edge is
false. -/
theorem C2_enum_emits_hint_not_dependency :
    findRelationships (fun _ => true) String.length
        (.rvalRef (.enumT 7)) .kDependency = ([(7, .kAggregation)], false) ∧
    RelT.kAggregation ≠ RelT.kDependency := by
  exact ⟨by decide, by decide⟩

/-- C2 (amended): `find_relationships` classifies a type by shape — a
pointer recurses into its pointee with hint `association`, an lvalue
reference into its referent with hint `association`, an rvalue reference
with hint `aggregation`, an array into its element type with hint
`aggregation`, an enum emits one relationship of the *current hint* kind
(the hint is `dependency` only when the caller passed that default)
targeting the enum's declaration id, and a void or void-pointer type emits
no relationship. -/
theorem C2_find_relationships_shape (si : String → Bool) (h64 : String → Nat) :
    (∀ p hint, (findRelationships si h64 (.ptr p) hint).1 =
      (findRelationships si h64 p .kAssociation).1) ∧
    (∀ t hint, (findRelationships si h64 (.lvalRef t) hint).1 =
      (findRelationships si h64 t .kAssociation).1) ∧
    (∀ t hint, (findRelationships si h64 (.rvalRef t) hint).1 =
      (findRelationships si h64 t .kAggregation).1) ∧
    (∀ e hint, (findRelationships si h64 (.arr e) hint).1 =
      (findRelationships si h64 e .kAggregation).1) ∧
    (∀ i hint, findRelationships si h64 (.enumT i) hint = ([(i, hint)], false)) ∧
    (∀ hint, findRelationships si h64 .void hint = ([], false)) ∧
    (∀ hint, findRelationships si h64 (.ptr .void) hint = ([], false)) := by
  refine ⟨?_, ?_, ?_, ?_, ?_, ?_, ?_⟩
  · intro p hint
    cases p <;> rfl
  · intro t hint; rfl
  · intro t hint; rfl
  · intro e hint; rfl
  · intro i hint; rfl
  · intro hint; rfl
  · intro hint; rfl

/-! ## Package-diagram model: `add_relationships` and the visitor entry
points (`translation_unit_visitor.cc`, lines 109–178, 256–274) -/

/-- `common::model::relationship` as used by the package diagram: a kind and
a destination id. -/
structure Relationship where
  kind : RelT
  destination : Nat
deriving DecidableEq, Repr

/-- A package as the visitor mutates it: its id and the relationships added
so far. -/
structure Package where
  id : Nat
  relationships : List Relationship
deriving DecidableEq, Repr

/-- The package diagram's package collection; `get(id)` scans for a package
with the given id. -/
abbrev PkgDiagram := List Package

/-- `diagram().get(id)`. -/
def getPackage (d : PkgDiagram) (i : Nat) : Option Package :=
  d.find? (fun p => p.id = i)

/-- Replace the first package with the given id, mirroring mutation through
the reference returned by `diagram().get`. -/
def updateFirstPackage : PkgDiagram → Nat → (Package → Package) → PkgDiagram
  | [], _, _ => []
  | p :: ps, i, f =>
    if p.id = i then f p :: ps else p :: updateFirstPackage ps i f

/-- The id `add_relationships` computes from the declaration's enclosing
namespace context: the package-diagram `to_id` of the namespace's qualified
name when the context is a namespace, and the initial value `0` otherwise
(lines 158–164). -/
def currentPackageId (h64 : String → Nat) : Option String → Nat
  | some q => toIdPkg h64 q
  | none => 0

/-- Embedding of `translation_unit_visitor::add_relationships` (lines
155–178).  For every found `(destination, hint)` pair a `dependency`
relationship is added to the current package unless the destination equals
the current package id.  The C++ `assert(current_package_id != 0)` is
modelled separately by `addRelationshipsAssertOk`. -/
def addRelationships (h64 : String → Nat) (nsContext : Option String)
    (relationships : List (Nat × RelT)) (d : PkgDiagram) : PkgDiagram :=
  let pid := currentPackageId h64 nsContext
  match getPackage d pid with
  | none => d
  | some _ =>
    updateFirstPackage d pid (fun p =>
      { p with
        relationships := p.relationships ++
          relationships.filterMap (fun dep =>
            if dep.1 ≠ pid then some ⟨RelT.kDependency, dep.1⟩ else none) })

/-- The predicate asserted at line 166: `current_package_id != 0`. -/
def addRelationshipsAssertOk (h64 : String → Nat) (nsContext : Option String) : Bool :=
  currentPackageId h64 nsContext ≠ 0

/-- Whether `VisitFunctionDecl` (lines 109–131) reaches `add_relationships`
with a satisfied assertion: declarations in system headers return before the
call; every other declaration reaches it with the id derived from its
enclosing namespace context. -/
def visitFunctionDeclAssertOk (h64 : String → Nat) (inSystemHeader : Bool)
    (nsContext : Option String) : Bool :=
  if inSystemHeader then true else addRelationshipsAssertOk h64 nsContext

/-- No package of the diagram holds a relationship targeting its own id. -/
def noSelfDependency (d : PkgDiagram) : Bool :=
  d.all (fun p => p.relationships.all (fun r => r.destination ≠ p.id))

/-- Auxiliary: `updateFirstPackage` preserves `noSelfDependency` when the
update function does not introduce a self edge into the package it is
applied to. -/
theorem updateFirstPackage_noSelf (i : Nat) (f : Package → Package)
    (hf : ∀ p : Package, p.id = i →
      (p.relationships.all (fun r => r.destination ≠ p.id)) = true →
      ((f p).relationships.all (fun r => r.destination ≠ (f p).id)) = true) :
    ∀ d : PkgDiagram, noSelfDependency d = true →
      noSelfDependency (updateFirstPackage d i f) = true := by
  intro d
  induction d with
  | nil => intro h; exact h
  | cons p ps ih =>
    intro h
    simp only [noSelfDependency, List.all_cons, Bool.and_eq_true] at h
    by_cases hp : p.id = i
    · simp only [updateFirstPackage, if_pos hp, noSelfDependency,
        List.all_cons, Bool.and_eq_true]
      exact ⟨hf p hp h.1, h.2⟩
    · simp only [updateFirstPackage, if_neg hp, noSelfDependency,
        List.all_cons, Bool.and_eq_true]
      exact ⟨h.1, ih h.2⟩

/-- C6: `add_relationships` never introduces a self edge — every found
relationship whose destination equals the current package's id is skipped,
so a diagram without self dependencies still has none after the call. -/
theorem C6_add_relationships_no_self_edge (h64 : String → Nat)
    (nsContext : Option String) (found : List (Nat × RelT)) (d : PkgDiagram)
    (h : noSelfDependency d = true) :
    noSelfDependency (addRelationships h64 nsContext found d) = true := by
  unfold addRelationships
  cases hg : getPackage d (currentPackageId h64 nsContext) with
  | none => simpa only [hg] using h
  | some p =>
    simp only [hg]
    apply updateFirstPackage_noSelf _ _ _ d h
    intro q hq hq2
    simp only [List.all_append, Bool.and_eq_true]
    refine ⟨hq2, ?_⟩
    simp only [List.all_eq_true]
    intro r hr
    simp only [List.mem_filterMap] at hr
    obtain ⟨dep, _, hdep⟩ := hr
    by_cases hne : dep.1 ≠ currentPackageId h64 nsContext
    · simp only [if_pos hne] at hdep
      cases hdep
      simpa [hq] using hne
    · simp only [if_neg hne] at hdep
      cases hdep

/-- Witness for C6: a package whose namespace maps to its own id receives
only the foreign dependency, not the self edge. -/
theorem C6_add_relationships_no_self_edge_witness :
    noSelfDependency [⟨1, []⟩] = true ∧
    noSelfDependency (addRelationships String.length (some "ns")
      [(1, .kDependency), (2, .kAssociation)] [⟨1, []⟩]) = true := by
  constructor
  · decide
  · exact C6_add_relationships_no_self_edge String.length (some "ns")
      [(1, .kDependency), (2, .kAssociation)] [⟨1, []⟩] (by decide)

/-- C10: the assertion `current_package_id != 0` in `add_relationships` is
violated for a declaration at global scope — `VisitFunctionDecl` skips only
system-header declarations, so a function whose enclosing declaration
context is not a namespace reaches `add_relationships` with the id still
`0`, under every hash function. -/
theorem C10_global_scope_violates_assert (h64 : String → Nat) :
    visitFunctionDeclAssertOk h64 false none = false ∧
    currentPackageId h64 none = 0 := by
  exact ⟨rfl, rfl⟩

/-! ## `process_template_method` (lines 256–274) -/

/-- The data of a `clang::FunctionTemplateDecl` consulted by
`process_template_method`: the templated declaration's defaulted flags, its
return type and its parameter types. -/
structure TemplateMethod where
  isDefaulted : Bool
  isExplicitlyDefaulted : Bool
  returnType : CType
  paramTypes : List CType

/-- Default value of the `relationship_hint` parameter of
`find_relationships`.  Modelled from the spec: the declaration carrying the
default argument lives in `translation_unit_visitor.h`, which is not in the
tree; the spec's relationship table gives `dependency` as the hint a record
type receives when no caller supplied one. -/
def defaultHint : RelT := .kDependency

/-- Embedding of `translation_unit_visitor::process_template_method`: when
the templated declaration is implicitly defaulted (`isDefaulted` and not
`isExplicitlyDefaulted`) it returns at once; otherwise it scans the return
type and every parameter type.  Returns the relationships appended. -/
def processTemplateMethod (si : String → Bool) (h64 : String → Nat)
    (m : TemplateMethod) : List (Nat × RelT) :=
  if m.isDefaulted && !m.isExplicitlyDefaulted then []
  else
    (findRelationships si h64 m.returnType defaultHint).1 ++
      m.paramTypes.flatMap (fun p => (findRelationships si h64 p defaultHint).1)

/-- C8: an implicitly defaulted template method contributes no
relationships — the reference traversal is skipped entirely; for every
other template method every relationship found in the return type or in any
parameter type is contributed. -/
theorem C8_template_method_defaulted_skip (si : String → Bool)
    (h64 : String → Nat) (m : TemplateMethod) :
    (m.isDefaulted = true → m.isExplicitlyDefaulted = false →
      processTemplateMethod si h64 m = []) ∧
    (¬(m.isDefaulted = true ∧ m.isExplicitlyDefaulted = false) →
      ∀ r, (r ∈ (findRelationships si h64 m.returnType defaultHint).1 ∨
          ∃ p ∈ m.paramTypes, r ∈ (findRelationships si h64 p defaultHint).1) →
        r ∈ processTemplateMethod si h64 m) := by
  constructor
  · intro h1 h2
    simp [processTemplateMethod, h1, h2]
  · intro hnot r hr
    have hcond : (m.isDefaulted && !m.isExplicitlyDefaulted) = false := by
      cases hd : m.isDefaulted with
      | false => simp
      | true =>
        cases he : m.isExplicitlyDefaulted with
        | false => exact absurd ⟨hd, he⟩ hnot
        | true => simp [he]
    simp only [processTemplateMethod, hcond, Bool.false_eq_true, if_false,
      List.mem_append, List.mem_flatMap]
    rcases hr with hr | ⟨p, hp, hr⟩
    · exact Or.inl hr
    · exact Or.inr ⟨p, hp, hr⟩

/-- Witness for C8: a concrete implicitly defaulted method yields no
relationships, while the same method not defaulted contributes the edge
found in its parameter type. -/
theorem C8_template_method_defaulted_skip_witness :
    processTemplateMethod (fun _ => true) String.length
      ⟨true, false, .void, [.enumT 3]⟩ = [] ∧
    (3, RelT.kDependency) ∈ processTemplateMethod (fun _ => true) String.length
      ⟨false, false, .void, [.enumT 3]⟩ := by
  constructor
  · exact (C8_template_method_defaulted_skip (fun _ => true) String.length
      ⟨true, false, .void, [.enumT 3]⟩).1 rfl rfl
  · exact (C8_template_method_defaulted_skip (fun _ => true) String.length
      ⟨false, false, .void, [.enumT 3]⟩).2 (by simp)
      (3, RelT.kDependency) (Or.inr ⟨.enumT 3, by simp, by decide⟩)

/-! ## Sequence-diagram generator
(`src/puml/sequence_diagram_generator.cc`, lines 58–115) -/

/-- `sequence_diagram::model::message` as the generator reads it. -/
structure Message where
  from_ : String
  to_ : String
  from_usr : String
  to_usr : String
  message : String
  return_type : String
deriving DecidableEq, Repr

/-- `sequence_diagram::model::activity`: the ordered messages of one caller
activity. -/
structure Activity where
  messages : List Message
deriving DecidableEq, Repr

/-- `m_model.sequences`: map from a caller activity's USR to its activity,
modelled as an association list. -/
abbrev Sequences := List (String × Activity)

/-- `sequences.find(usr)`. -/
def lookupSeq (seqs : Sequences) (u : String) : Option Activity :=
  (seqs.find? (fun e => e.1 = u)).map (fun e => e.2)

/-- `sequences[usr]`: `std::map::operator[]` default-constructs an empty
activity for a missing key. -/
def seqAt (seqs : Sequences) (u : String) : Activity :=
  (lookupSeq seqs u).getD ⟨[]⟩

/-- Embedding of `generator::generate_call`: the single PlantUML line the
call arrow produces.  `nsRel` stands for `ns_relative(m_config.using_namespace, ·)`,
whose definition lives outside the given sources. -/
def generateCall (nsRel : String → String) (m : Message) : List String :=
  ["\"" ++ nsRel m.from_ ++ "\" -> \"" ++ nsRel m.to_ ++ "\" : " ++
    m.message ++ "()"]

/-- Embedding of `generator::generate_return` (lines 68–78): the return
arrow is emitted only when the message is not a self call *and* its return
type is not `void`. -/
def generateReturn (nsRel : String → String) (m : Message) : List String :=
  if m.from_ ≠ m.to_ ∧ m.return_type ≠ "void" then
    ["\"" ++ nsRel m.to_ ++ "\" --> \"" ++ nsRel m.from_ ++ "\""]
  else []

/-- Embedding of `generator::generate_activity` (lines 80–91).  The C++
recursion carries no cycle guard; the `fuel` argument models the call
stack, and any fuel at least the recursion depth reproduces the C++
output on terminating inputs. -/
def generateActivity (nsRel : String → String) (seqs : Sequences) :
    Nat → Activity → List String
  | 0, _ => []
  | fuel + 1, a =>
    a.messages.flatMap (fun m =>
      generateCall nsRel m ++
      ["activate \"" ++ nsRel m.to_ ++ "\""] ++
      (match lookupSeq seqs m.to_usr with
       | some a2 => generateActivity nsRel seqs fuel a2
       | none => []) ++
      generateReturn nsRel m ++
      ["deactivate \"" ++ nsRel m.to_ ++ "\""])

/-- Modelled from the spec: the `config::source_location` variant held by
`start_from` (its definition is in the configuration layer, outside the
given sources).  An entry point may be given as a USR, a fully-qualified
name, or a source location. -/
inductive StartFrom where
  | usr (u : String)
  | fqName (name : String)
  | fileLine (file : String) (line : Nat)
deriving DecidableEq, Repr

/-- Does a `start_from` entry hold the USR alternative? -/
def isUsrStart : StartFrom → Bool
  | .usr _ => true
  | _ => false

/-- Embedding of `generator::generate` (lines 93–115): emit `@startuml`,
the configured prologue, then for each `start_from` entry an activity —
but only entries holding the USR alternative are used; every other
alternative hits the `TODO` branch and is skipped with `continue`. -/
def generateDiagram (nsRel : String → String) (before after : List String)
    (seqs : Sequences) (startFrom : List StartFrom) (fuel : Nat) : List String :=
  ["@startuml"] ++ before ++
    startFrom.flatMap (fun sf =>
      match sf with
      | .usr u => generateActivity nsRel seqs fuel (seqAt seqs u)
      | _ => []) ++
    after ++ ["@enduml"]

/-- C4 counterexample: a self call with a non-void return type produces no
return arrow, refuting the claim that a return is emitted exactly when the
return type is not `void`. -/
theorem C4_self_call_return_suppressed :
    generateReturn id ⟨"A", "A", "uA", "uA", "a", "int"⟩ = [] ∧
    ("int" : String) ≠ "void" := by
  exact ⟨by decide, by decide⟩

/-- C4 (amended): `generate_return` emits a return arrow exactly when the
message is not a self call and its return type is not `"void"`; equivalently
it emits nothing exactly when the call is a self call or returns `void`. -/
theorem C4_return_condition (nsRel : String → String) (m : Message) :
    generateReturn nsRel m = [] ↔ (m.from_ = m.to_ ∨ m.return_type = "void") := by
  unfold generateReturn
  by_cases h : m.from_ ≠ m.to_ ∧ m.return_type ≠ "void"
  · simp only [if_pos h]
    constructor
    · intro hc; cases hc
    · intro hc
      rcases hc with hc | hc
      · exact absurd hc h.1
      · exact absurd hc h.2
  · simp only [if_neg h]
    constructor
    · intro _
      by_cases h1 : m.from_ = m.to_
      · exact Or.inl h1
      · refine Or.inr ?_
        by_cases h2 : m.return_type = "void"
        · exact h2
        · exact absurd ⟨h1, h2⟩ h
    · intro _; trivial

/-- C5 counterexample: an entry point given by fully-qualified name is
skipped — the diagram body stays empty even though the model holds a
matching activity — while the same entry given as a USR is generated. -/
theorem C5_named_entry_point_skipped :
    generateDiagram id [] []
        [("c:@F@tmain#", ⟨[⟨"tmain()", "A", "c:@F@tmain#", "c:@S@A@F@a#", "a", "void"⟩]⟩)]
        [.fqName "tmain()"] 4 = ["@startuml", "@enduml"] ∧
    generateDiagram id [] []
        [("c:@F@tmain#", ⟨[⟨"tmain()", "A", "c:@F@tmain#", "c:@S@A@F@a#", "a", "void"⟩]⟩)]
        [.usr "c:@F@tmain#"] 4 ≠ ["@startuml", "@enduml"] := by
  exact ⟨by decide, by decide⟩

/-- C5 (amended): only `start_from` entries holding the USR alternative
produce an activity; name- and location-based entries hit the `TODO`
branch and are skipped, so a configuration without USR entries generates
an empty diagram body, while a USR entry generates its activity. -/
theorem C5_only_usr_entry_points (nsRel : String → String)
    (before after : List String) (seqs : Sequences) (startFrom : List StartFrom)
    (fuel : Nat) (h : ∀ sf ∈ startFrom, isUsrStart sf = false) :
    generateDiagram nsRel before after seqs startFrom fuel =
      ["@startuml"] ++ before ++ after ++ ["@enduml"] ∧
    ∀ u, generateDiagram nsRel before after seqs [.usr u] fuel =
      ["@startuml"] ++ before ++
        generateActivity nsRel seqs fuel (seqAt seqs u) ++ after ++ ["@enduml"] := by
  constructor
  · unfold generateDiagram
    have hflat : startFrom.flatMap (fun sf =>
        match sf with
        | .usr u => generateActivity nsRel seqs fuel (seqAt seqs u)
        | _ => []) = [] := by
      induction startFrom with
      | nil => rfl
      | cons sf rest ih =>
        have hsf := h sf (by simp)
        have hrest : ∀ x ∈ rest, isUsrStart x = false := by
          intro x hx; exact h x (by simp [hx])
        cases sf with
        | usr u => simp [isUsrStart] at hsf
        | fqName n => simpa using ih hrest
        | fileLine f l => simpa using ih hrest
    rw [hflat]
    simp
  · intro u
    simp [generateDiagram]

/-- Witness for C5 (amended): a name-only configuration yields the bare
wrapper. -/
theorem C5_only_usr_entry_points_witness :
    generateDiagram id ["title x"] [] [] [.fqName "tmain()"] 3 =
      ["@startuml"] ++ ["title x"] ++ [] ++ ["@enduml"] := by
  exact (C5_only_usr_entry_points id ["title x"] [] [] [.fqName "tmain()"] 3
    (by decide)).1

/-! ## Tokenizer for unexposed template parameters
(`src/common/clang_utils.cc`, lines 463–596) -/

/-- Split a list of characters at a separator, keeping empty chunks. -/
def splitCharAux (sep : Char) : List Char → List Char → List (List Char)
  | [], cur => [cur.reverse]
  | c :: rest, cur =>
    if c = sep then cur.reverse :: splitCharAux sep rest []
    else splitCharAux sep rest (c :: cur)

/-- Modelled from the spec: `util::split` (not in the given sources) splits
on the delimiter and skips empty tokens; the spec relies on it for
space-separated words and for `a.b.c` key paths. -/
def splitSkipEmpty (sep : Char) (s : String) : List String :=
  ((splitCharAux sep s.toList []).map List.asString).filter (fun w => w ≠ "")

/-- Modelled from the spec: `util::trim` (not in the given sources) strips
leading and trailing whitespace. -/
def trimS (s : String) : String :=
  (((s.toList.dropWhile (fun c => isSpaceC c)).reverse.dropWhile
      (fun c => isSpaceC c)).reverse).asString

/-- `is_identifier_character` (line 478). -/
def isIdentChar (c : Char) : Bool := isAlnumC c || c = '_'

/-- `is_qualified_identifier` (lines 506–512): first character alphabetic
and every character an identifier character or a colon.  (`t.at(0)` on an
empty string would throw; callers only pass non-empty words.) -/
def isQualifiedIdentifierB (t : String) : Bool :=
  match t.toList with
  | [] => false
  | c :: _ => isAlphaC c && t.toList.all (fun x => isIdentChar x || x = ':')

/-- `is_keyword` (lines 487–504): the keyword table of the tokenizer. -/
def isKeywordB (t : String) : Bool :=
  ["alignas", "alignof", "asm", "auto", "bool", "break", "case", "catch",
    "char", "char16_t", "char32_t", "class", "concept", "const", "constexpr",
    "const_cast", "continue", "decltype", "default", "delete", "do", "double",
    "dynamic_cast", "else", "enum", "explicit", "export", "extern", "false",
    "float", "for", "friend", "goto", "if", "inline", "int", "long",
    "mutable", "namespace", "new", "noexcept", "nullptr", "operator",
    "private", "protected", "public", "register", "reinterpret_cast",
    "return", "requires", "short", "signed", "sizeof", "static",
    "static_assert", "static_cast", "struct", "switch", "template", "this",
    "thread_local", "throw", "true", "try", "typedef", "typeid", "typename",
    "union", "unsigned", "using", "virtual", "void", "volatile", "wchar_t",
    "while"].contains t

/-- One step of the character loop of
`tokenize_unexposed_template_parameter` (lines 536–584): the state is the
current token and the tokens already pushed for this word. -/
def tokenizeCharStep (st : String × List String) (c : Char) : String × List String :=
  let tok := st.1
  let out := st.2
  if c = '(' || c = ')' || c = '[' || c = ']' then
    ("", (if tok ≠ "" then out ++ [tok] else out) ++ [String.mk [c]])
  else if c = ':' then
    if tok ≠ "" ∧ tok ≠ ":" then (":", out ++ [tok])
    else (tok.push ':', out)
  else if c = ',' then
    ("", (if tok ≠ "" then out ++ [tok] else out) ++ [","])
  else if c = '*' then
    ("", (if tok ≠ "" then out ++ [tok] else out) ++ ["*"])
  else if c = '.' then
    if tok = ".." then ("", out ++ ["..."])
    else if tok = "." then ("..", out)
    else if tok ≠ "" then (".", out ++ [tok])
    else (tok, out)
  else
    (tok.push c, out)

/-- Tokens produced for one space-separated word (the body of the outer
loop, lines 527–593).  A qualified identifier is kept unless it equals
`"class"`, `"templated"` or `"struct"` (sic — line 529 compares against
`"templated"`, not `"typename"`); otherwise the character loop runs and the
trimmed residual token is kept unless it equals `"class"`, `"typename"` or
the *word* equals `"struct"` (sic — line 589 tests `word`, not `tok`). -/
def tokenizeWord (word : String) : List String :=
  if isQualifiedIdentifierB word then
    if word ≠ "class" ∧ word ≠ "templated" ∧ word ≠ "struct" then [word]
    else []
  else
    let st := word.toList.foldl tokenizeCharStep ("", [])
    let tok := trimS st.1
    st.2 ++
      (if tok ≠ "" ∧ tok ≠ "class" ∧ tok ≠ "typename" ∧ word ≠ "struct" then
        [tok]
      else [])

/-- Embedding of `tokenize_unexposed_template_parameter` (lines 520–596). -/
def tokenizeUnexposedTemplateParameter (t : String) : List String :=
  (splitSkipEmpty ' ' t).flatMap tokenizeWord

/-- C7: the keyword `typename` is *not* dropped — the qualified-identifier
branch compares the word against the non-keyword `"templated"` instead of
`"typename"`, so tokenizing `"typename"` yields the keyword itself (and the
residual branch lets `struct` through after a `*`), although the
tokenizer's own keyword table lists `typename` and `struct` and the sibling
comparisons drop `class` and bare `struct`. -/
theorem C7_typename_token_survives :
    tokenizeUnexposedTemplateParameter "typename" = ["typename"] ∧
    tokenizeUnexposedTemplateParameter "*struct" = ["*", "struct"] ∧
    tokenizeUnexposedTemplateParameter "class" = [] ∧
    tokenizeUnexposedTemplateParameter "struct" = [] ∧
    isKeywordB "typename" = true ∧ isKeywordB "struct" = true := by
  exact ⟨by decide, by decide, by decide, by decide, by decide, by decide⟩

/-! ## `parse_unexposed_template_params`
(`src/common/clang_utils.cc`, lines 371–461) -/

/-- `common::model::template_parameter` as the parser builds it: the
argument's type string and its nested parameters
(`make_unexposed_argument` plus `add_template_param`). -/
inductive TemplateParameter where
  | mk (type : String) (params : List TemplateParameter)

/-- The type string of a template parameter. -/
def tpType : TemplateParameter → String
  | .mk t _ => t

/-- The nested parameters of a template parameter. -/
def tpParams : TemplateParameter → List TemplateParameter
  | .mk _ ps => ps

/-- Indexing helper with an empty parameter as default. -/
def tpAt (l : List TemplateParameter) (i : Nat) : TemplateParameter :=
  l.getD i ⟨"", []⟩

/-- Modelled from the spec: `util::trim_typename` (not in the given
sources) trims whitespace and strips a leading `typename ` keyword, per the
spec's rule that `class`/`typename`/`struct` keywords are dropped from type
tokens. -/
def trimTypename (s : String) : String :=
  let t := trimS s
  if t.toList.take 9 = "typename ".toList then (t.toList.drop 9).asString
  else t

/-- A moved-from `template_parameter`: the completion loop moves each
element of `nested_params` into the new argument without clearing the
vector, so the elements stay behind in the moved-from state — an emptied
string and an emptied vector (the behaviour of `std::string` /
`std::vector` moves in the standard library builds the project uses). -/
def hollowTP : TemplateParameter → TemplateParameter :=
  fun _ => ⟨"", []⟩

/-- The bracket-matching scan of the `<` branch (lines 390–406): given the
characters after a `<`, return the characters up to the matching `>` at
nesting level zero and the remainder beginning with that `>` (empty when
the string is exhausted first). -/
def bracketMatch : List Char → Nat → List Char × List Char
  | [], _ => ([], [])
  | c :: rest, lvl =>
    if c = '<' then
      let r := bracketMatch rest (lvl + 1)
      (c :: r.1, r.2)
    else if c = '>' then
      if 0 < lvl then
        let r := bracketMatch rest (lvl - 1)
        (c :: r.1, r.2)
      else ([], c :: rest)
    else
      let r := bracketMatch rest lvl
      (c :: r.1, r.2)

/-- Completion of a template argument (lines 437–446): resolve the trimmed
type text and attach the nested parameters. -/
def completeArg (nsResolve : String → String) (ty : String)
    (nested : List TemplateParameter) : TemplateParameter :=
  ⟨nsResolve (trimTypename ty), nested⟩

/-- The code after the parse loop (lines 450–458): a trailing non-empty
type text becomes a final argument; an empty one is dropped (together with
any leftover nested parameters). -/
def finalizeUTP (nsResolve : String → String) (ty : String)
    (nested res : List TemplateParameter) : List TemplateParameter :=
  if ty ≠ "" then res ++ [completeArg nsResolve ty nested] else res

mutual
/-- Embedding of `parse_unexposed_template_params` (lines 371–461) over a
character list.  The `fuel` argument makes the recursion structural so the
kernel can evaluate it; every recursive call strictly decreases the measure
`2·|input| + 1` for `parseUTPFuel` and `2·|remaining|` for `parseLoopFuel`,
so the wrapper's initial fuel of `2·|params| + 1` is never exhausted and
the `0` cases are unreachable. -/
def parseUTPFuel (nsResolve : String → String) :
    Nat → List Char → Nat → List TemplateParameter
  | 0, _, _ => []
  | fuel + 1, params, depth =>
    parseLoopFuel nsResolve fuel (params.dropWhile (fun c => isSpaceC c))
      depth "" [] []

/-- The parse loop (lines 388–448); the state carries the remaining input,
the `depth`, the accumulated `type` text, the current `nested_params` and
the completed arguments `res`. -/
def parseLoopFuel (nsResolve : String → String) :
    Nat → List Char → Nat → String → List TemplateParameter →
      List TemplateParameter → List TemplateParameter
  | 0, _, _, _, _, res => res
  | _ + 1, [], _, ty, nested, res => finalizeUTP nsResolve ty nested res
  | fuel + 1, c :: rest, depth, ty, nested, res =>
    if c = '<' then
      let bm := bracketMatch rest 0
      let inner := parseUTPFuel nsResolve fuel bm.1 (depth + 1)
      let nested2 := if inner.isEmpty then [⟨bm.1.asString, []⟩] else inner
      parseLoopFuel nsResolve fuel bm.2 depth ty nested2 res
    else if c = '>' then
      if depth = 0 then finalizeUTP nsResolve ty nested res
      else
        parseLoopFuel nsResolve fuel rest depth "" (nested.map hollowTP)
          (res ++ [completeArg nsResolve ty nested])
    else if c = ',' then
      parseLoopFuel nsResolve fuel rest depth "" (nested.map hollowTP)
        (res ++ [completeArg nsResolve ty nested])
    else
      parseLoopFuel nsResolve fuel rest depth (ty.push c) nested res
end

/-- `parse_unexposed_template_params` on a string, with sufficient fuel. -/
def parseUnexposedTemplateParams (nsResolve : String → String)
    (params : String) (depth : Nat) : List TemplateParameter :=
  parseUTPFuel nsResolve (2 * params.toList.length + 1) params.toList depth

/-- C3: parsing `A<B<C,D>,E>` at depth 0 yields one top-level parameter
named `A` whose *first* child is `B` with children `C` and `D` — but `A`
has *three* children, not two: the comma following the nested `>` runs the
completion block again with an empty `type`, inserting a spurious
empty-named argument between `B` and `E` (and, because `nested_params` is
never cleared, the moved-from parameters are re-attached to the following
arguments). -/
theorem C3_parse_spurious_empty_argument :
    (parseUnexposedTemplateParams id "A<B<C,D>,E>" 0).length = 1 ∧
    tpType (tpAt (parseUnexposedTemplateParams id "A<B<C,D>,E>" 0) 0) = "A" ∧
    (tpParams (tpAt (parseUnexposedTemplateParams id "A<B<C,D>,E>" 0) 0)).length = 3 ∧
    tpType (tpAt (tpParams (tpAt (parseUnexposedTemplateParams id "A<B<C,D>,E>" 0) 0)) 0)
      = "B" ∧
    (tpParams (tpAt (tpParams (tpAt (parseUnexposedTemplateParams id "A<B<C,D>,E>" 0) 0)) 0)).map
      tpType = ["C", "D"] ∧
    tpType (tpAt (tpParams (tpAt (parseUnexposedTemplateParams id "A<B<C,D>,E>" 0) 0)) 1)
      = "" ∧
    tpType (tpAt (tpParams (tpAt (parseUnexposedTemplateParams id "A<B<C,D>,E>" 0) 0)) 2)
      = "E" := by
  exact ⟨by decide, by decide, by decide, by decide, by decide, by decide, by decide⟩

/-! ## Custom user data (`src/cli/cli_handler.cc`, lines 855–874) -/

/-- An `inja::json` (nlohmann) value as `add_custom_user_data` can encounter
it in the `user_data` configuration node: null, a scalar (`str` stands for
every scalar kind — string, number, boolean — all of which answer `false`
to both `is_object()` and `empty()`), an object, or an array. -/
inductive UData where
  | null
  | str (s : String)
  | obj (fields : List (String × UData))
  | arr (elems : List UData)

/-- `json::is_object()`. -/
def isObjectB : UData → Bool
  | .obj _ => true
  | _ => false

/-- `json::is_array()`. -/
def isArrB : UData → Bool
  | .arr _ => true
  | _ => false

/-- `json::empty()`: true for null and for an object or array with no
elements; false for scalars. -/
def emptyB : UData → Bool
  | .null => true
  | .str _ => false
  | .obj l => l.isEmpty
  | .arr l => l.isEmpty

/-- The condition checked before each descent (line 861, negated): the
current node is an object or empty. -/
def isAcceptableB (j : UData) : Bool := isObjectB j || emptyB j

/-- Member lookup on an object; `none` on any other value. -/
def lookupField : UData → String → Option UData
  | .obj l, k => (l.find? (fun e => e.1 = k)).map (fun e => e.2)
  | _, _ => none

/-- The members `operator[]` works on: a null (or empty) node behaves as an
empty object. -/
def fieldsOf : UData → List (String × UData)
  | .obj l => l
  | _ => []

/-- Replace the value under `k`, or append the member (nlohmann keeps
object members in a `std::map`; member order is irrelevant to lookups, so
an association list models it). -/
def insertField : List (String × UData) → String → UData → List (String × UData)
  | [], k, c => [(k, c)]
  | (k1, v1) :: rest, k, c =>
    if k1 = k then (k1, c) :: rest else (k1, v1) :: insertField rest k c

/-- `(*user_data_it)[key] = subtree`, rebuilding the node around the
updated child. -/
def objInsert (j : UData) (k : String) (c : UData) : UData :=
  .obj (insertField (fieldsOf j) k c)

/-- The three ways `add_custom_user_data`'s per-key loop can leave a pair:
the new tree, the `LOG_ERROR` + `return cli_flow_t::kError` path, or an
nlohmann `type_error` exception escaping from `operator[]`. -/
inductive SetResult where
  | ok (j : UData)
  | kError
  | thrown

/-- Did the loop produce a tree? -/
def isOkB : SetResult → Bool
  | .ok _ => true
  | _ => false

/-- Did the loop take the `kError` return? -/
def isKErrorB : SetResult → Bool
  | .kError => true
  | _ => false

/-- Did `operator[]` throw? -/
def isThrownB : SetResult → Bool
  | .thrown => true
  | _ => false

/-- Embedding of the per-key loop of `add_custom_user_data` (lines
858–868): before descending through each key the current node must be an
object or empty, otherwise the function returns `kError`; when the check
passes but the node is an array — necessarily an *empty* array, since a
non-empty one already failed the check — `operator[](key)` throws
`nlohmann::type_error` instead of descending; after the loop the leaf is
assigned the value.  (On error the C++ leaves members already created by
`operator[]` behind; the model returns the un-mutated error outcome, which
the inserted-but-then-error nodes do not affect observably through the
`config.user_data()` reads the tool performs.) -/
def setAtPath : UData → List String → UData → SetResult
  | _, [], v => .ok v
  | j, k :: ks, v =>
    if isObjectB j || emptyB j then
      if isArrB j then .thrown
      else
        match setAtPath ((lookupField j k).getD .null) ks v with
        | .ok c2 => .ok (objInsert j k c2)
        | .kError => .kError
        | .thrown => .thrown
    else .kError

/-- One `--user-data` pair: the key path is split on `.` and traversed. -/
def addCustomUserDataEntry (root : UData) (keyPath : String) (v : UData) :
    SetResult :=
  setAtPath root (splitSkipEmpty '.' keyPath) v

/-- Embedding of `cli_handler::add_custom_user_data`: fold the configured
pairs, stopping at the first error return or escaping exception. -/
def addCustomUserData : UData → List (String × UData) → SetResult
  | root, [] => .ok root
  | root, (keyPath, v) :: rest =>
    match addCustomUserDataEntry root keyPath v with
    | .ok root2 => addCustomUserData root2 rest
    | .kError => .kError
    | .thrown => .thrown

/-- The node the traversal visits after following a prefix of the key path,
taking the null child for missing members (as `operator[]` creates it). -/
def nodeAtPath : UData → List String → UData
  | j, [] => j
  | j, k :: ks => nodeAtPath ((lookupField j k).getD .null) ks

/-- The first `m` nodes the traversal visits are all passable without
incident: each is an object or empty, and none is an array. -/
def okUpToB (j : UData) (path : List String) (m : Nat) : Bool :=
  (List.range m).all (fun i =>
    isAcceptableB (nodeAtPath j (path.take i)) &&
      !isArrB (nodeAtPath j (path.take i)))

/-- Read back the value stored at a path. -/
def getAtPath : UData → List String → Option UData
  | j, [] => some j
  | j, k :: ks =>
    match lookupField j k with
    | some c => getAtPath c ks
    | none => none

/-- Unfolding of `okUpToB` along one key. -/
theorem okUpToB_cons (j : UData) (k : String) (ks : List String) (m : Nat) :
    okUpToB j (k :: ks) (m + 1) =
      ((isAcceptableB j && !isArrB j) &&
        okUpToB ((lookupField j k).getD .null) ks m) := by
  unfold okUpToB
  simp only [List.range_succ_eq_map, List.all_cons, List.all_map,
    List.take_succ_cons, List.take_zero]
  rfl

/-- Looking up the key just inserted returns the inserted child. -/
theorem lookupField_objInsert (j : UData) (k : String) (c : UData) :
    lookupField (objInsert j k c) k = some c := by
  unfold objInsert lookupField
  induction fieldsOf j with
  | nil => simp [insertField]
  | cons e rest ih =>
    obtain ⟨k1, v1⟩ := e
    by_cases hk : k1 = k
    · simp [insertField, hk]
    · simp only [insertField, if_neg hk, List.find?]
      have : (decide (k1 = k)) = false := by simpa using hk
      rw [this]
      exact ih

/-- C9 counterexample: with `{"a": []}` and key path `a.b`, the traversal
reaches the empty array under `a`, which *is* empty — by the claim no error
should occur and the value should be assigned at the leaf — yet the call
neither returns a tree nor takes the `kError` return: `operator[]` throws,
refuting the claimed biconditional. -/
theorem C9_empty_array_neither_errors_nor_assigns :
    isThrownB (setAtPath (.obj [("a", .arr [])]) ["a", "b"] (.str "x")) = true ∧
    isKErrorB (setAtPath (.obj [("a", .arr [])]) ["a", "b"] (.str "x")) = false ∧
    isOkB (setAtPath (.obj [("a", .arr [])]) ["a", "b"] (.str "x")) = false ∧
    emptyB (.arr []) = true ∧
    isObjectB (.arr []) = false := by
  exact ⟨by decide, by decide, by decide, by decide, by decide⟩

/-- C9 (amended): the key path splits on `.` and is traversed as nested
object keys, and the outcome is a trichotomy over the first offending node
the traversal visits: the assignment succeeds (and the value is stored at
the leaf) exactly when every visited node is an object or empty and none is
an array; the `kError` return is taken exactly when a node that is neither
an object nor empty is reached after passable nodes only; and an nlohmann
`type_error` escapes from `operator[]` exactly when an (empty) array node —
which passes the object-or-empty check — is reached after passable nodes
only. -/
theorem C9_user_data_traversal_outcomes (j : UData) (path : List String)
    (v : UData) :
    splitSkipEmpty '.' "a.b.c" = ["a", "b", "c"] ∧
    isOkB (setAtPath j path v) = okUpToB j path path.length ∧
    (isKErrorB (setAtPath j path v) = true ↔
      ∃ m, m < path.length ∧ okUpToB j path m = true ∧
        isAcceptableB (nodeAtPath j (path.take m)) = false) ∧
    (isThrownB (setAtPath j path v) = true ↔
      ∃ m, m < path.length ∧ okUpToB j path m = true ∧
        isAcceptableB (nodeAtPath j (path.take m)) = true ∧
        isArrB (nodeAtPath j (path.take m)) = true) ∧
    (∀ j2, setAtPath j path v = SetResult.ok j2 → getAtPath j2 path = some v) := by
  refine ⟨by decide, ?_, ?_, ?_, ?_⟩
  · induction path generalizing j with
    | nil => simp [setAtPath, isOkB, okUpToB]
    | cons k ks ih =>
      simp only [List.length_cons]
      rw [okUpToB_cons]
      unfold setAtPath
      by_cases hacc : (isObjectB j || emptyB j) = true
      · rw [if_pos hacc]
        by_cases harr : isArrB j = true
        · rw [if_pos harr]
          have hz : (isAcceptableB j && !isArrB j) = false := by simp [harr]
          rw [hz, Bool.false_and]
          rfl
        · rw [if_neg harr]
          have ho : (isAcceptableB j && !isArrB j) = true := by
            simp [isAcceptableB, hacc, Bool.eq_false_iff.mpr harr]
          rw [ho, Bool.true_and]
          rw [← ih ((lookupField j k).getD .null)]
          cases setAtPath ((lookupField j k).getD .null) ks v <;> rfl
      · rw [if_neg hacc]
        have hz : (isAcceptableB j && !isArrB j) = false := by
          have h1 : isAcceptableB j = false := by
            unfold isAcceptableB
            exact Bool.eq_false_iff.mpr hacc
          simp [h1]
        rw [hz, Bool.false_and]
        rfl
  · induction path generalizing j with
    | nil =>
      simp [setAtPath, isKErrorB]
    | cons k ks ih =>
      unfold setAtPath
      by_cases hacc : (isObjectB j || emptyB j) = true
      · rw [if_pos hacc]
        have haccj : isAcceptableB j = true := hacc
        by_cases harr : isArrB j = true
        · rw [if_pos harr]
          constructor
          · intro hfalse; cases hfalse
          · rintro ⟨m, _, hok, hbad⟩
            cases m with
            | zero =>
              simp only [List.take_zero, nodeAtPath] at hbad
              rw [haccj] at hbad
              cases hbad
            | succ m2 =>
              rw [okUpToB_cons] at hok
              simp [haccj, harr] at hok
        · rw [if_neg harr]
          have hmain : isKErrorB
              (match setAtPath ((lookupField j k).getD .null) ks v with
               | .ok c2 => SetResult.ok (objInsert j k c2)
               | .kError => SetResult.kError
               | .thrown => SetResult.thrown) = true ↔
              isKErrorB (setAtPath ((lookupField j k).getD .null) ks v) = true := by
            cases setAtPath ((lookupField j k).getD .null) ks v with
            | ok c2 => constructor <;> (intro hx; cases hx)
            | kError => simp [isKErrorB]
            | thrown => constructor <;> (intro hx; cases hx)
          rw [hmain, ih ((lookupField j k).getD .null)]
          constructor
          · rintro ⟨m, hm, hok, hbad⟩
            refine ⟨m + 1, by simpa using hm, ?_, hbad⟩
            rw [okUpToB_cons]
            simp [haccj, Bool.eq_false_iff.mpr harr, hok]
          · rintro ⟨m, hm, hok, hbad⟩
            cases m with
            | zero =>
              simp only [List.take_zero, nodeAtPath] at hbad
              rw [haccj] at hbad
              cases hbad
            | succ m2 =>
              rw [okUpToB_cons] at hok
              simp only [Bool.and_eq_true] at hok
              exact ⟨m2, by simpa using hm, hok.2, hbad⟩
      · rw [if_neg hacc]
        have haccj : isAcceptableB j = false := by
          unfold isAcceptableB
          exact Bool.eq_false_iff.mpr hacc
        constructor
        · intro _
          exact ⟨0, by simp, rfl, by simpa [nodeAtPath] using haccj⟩
        · intro _; rfl
  · induction path generalizing j with
    | nil =>
      simp [setAtPath, isThrownB]
    | cons k ks ih =>
      unfold setAtPath
      by_cases hacc : (isObjectB j || emptyB j) = true
      · rw [if_pos hacc]
        have haccj : isAcceptableB j = true := hacc
        by_cases harr : isArrB j = true
        · rw [if_pos harr]
          constructor
          · intro _
            exact ⟨0, by simp, rfl, by simpa [nodeAtPath] using haccj,
              by simpa [nodeAtPath] using harr⟩
          · intro _; rfl
        · rw [if_neg harr]
          have hmain : isThrownB
              (match setAtPath ((lookupField j k).getD .null) ks v with
               | .ok c2 => SetResult.ok (objInsert j k c2)
               | .kError => SetResult.kError
               | .thrown => SetResult.thrown) = true ↔
              isThrownB (setAtPath ((lookupField j k).getD .null) ks v) = true := by
            cases setAtPath ((lookupField j k).getD .null) ks v with
            | ok c2 => constructor <;> (intro hx; cases hx)
            | kError => constructor <;> (intro hx; cases hx)
            | thrown => simp [isThrownB]
          rw [hmain, ih ((lookupField j k).getD .null)]
          constructor
          · rintro ⟨m, hm, hok, hgood, hisarr⟩
            refine ⟨m + 1, by simpa using hm, ?_, hgood, hisarr⟩
            rw [okUpToB_cons]
            simp [haccj, Bool.eq_false_iff.mpr harr, hok]
          · rintro ⟨m, hm, hok, hgood, hisarr⟩
            cases m with
            | zero =>
              simp only [List.take_zero, nodeAtPath] at hisarr
              exact absurd hisarr harr
            | succ m2 =>
              rw [okUpToB_cons] at hok
              simp only [Bool.and_eq_true] at hok
              exact ⟨m2, by simpa using hm, hok.2, hgood, hisarr⟩
      · rw [if_neg hacc]
        have haccj : isAcceptableB j = false := by
          unfold isAcceptableB
          exact Bool.eq_false_iff.mpr hacc
        constructor
        · intro hfalse; cases hfalse
        · rintro ⟨m, _, hok, hgood, _⟩
          cases m with
          | zero =>
            simp only [List.take_zero, nodeAtPath] at hgood
            rw [haccj] at hgood
            cases hgood
          | succ m2 =>
            rw [okUpToB_cons] at hok
            simp [haccj] at hok
  · induction path generalizing j with
    | nil =>
      intro j2 h2
      unfold setAtPath at h2
      cases h2
      rfl
    | cons k ks ih =>
      intro j2 h2
      unfold setAtPath at h2
      by_cases hacc : (isObjectB j || emptyB j) = true
      · rw [if_pos hacc] at h2
        by_cases harr : isArrB j = true
        · rw [if_pos harr] at h2
          cases h2
        · rw [if_neg harr] at h2
          cases hset : setAtPath ((lookupField j k).getD .null) ks v with
          | ok c2 =>
            rw [hset] at h2
            cases h2
            unfold getAtPath
            rw [lookupField_objInsert]
            exact ih _ c2 hset
          | kError => rw [hset] at h2; cases h2
          | thrown => rw [hset] at h2; cases h2
      · rw [if_neg hacc] at h2
        cases h2

/-- Witness for C9 (amended): assigning `"x"` under path `a.b` in
`{"a": null}` succeeds with the value read back at the leaf. -/
theorem C9_user_data_traversal_outcomes_witness :
    isOkB (setAtPath (.obj [("a", .null)]) ["a", "b"] (.str "x")) =
      okUpToB (.obj [("a", .null)]) ["a", "b"] 2 ∧
    getAtPath (.obj [("a", .obj [("b", .str "x")])]) ["a", "b"] = some (.str "x") := by
  refine ⟨?_, ?_⟩
  · exact (C9_user_data_traversal_outcomes (.obj [("a", .null)]) ["a", "b"]
      (.str "x")).2.1
  · exact (C9_user_data_traversal_outcomes (.obj [("a", .null)]) ["a", "b"]
      (.str "x")).2.2.2.2 (.obj [("a", .obj [("b", .str "x")])]) rfl

end Clanguml
